import Mathlib

/-!
Verification of the github-mcp-server cross-cutting machinery:
parameter binding, rate-limit retry, identity resolution, and
read-only tool registration, shallowly embedded from
`pkg/github/diagnostics.go` and `pkg/github/projects.go`.
-/

namespace GithubMcp

/-- Dynamic values carried in a tool call's argument map
(`request.Params.Arguments`, a Go `map[string]interface\x7b\x7d`).
The constructors cover the dynamic types the binders in
`diagnostics.go` inspect: `string`, `float64`, `int`, `int64`,
`json.Number` (a decimal string), and `bool`.  A `float64` argument is
modelled by the integer it carries (the binders immediately truncate
floats with Go's `int(v)`, and all claim-relevant inputs are integral). -/
inductive GoValue where
  | vstr (s : String)
  | vfloat (n : Int)
  | vint (n : Int)
  | vint64 (n : Int)
  | vjson (s : String)
  | vbool (b : Bool)
deriving Repr, DecidableEq

/-- The Go `%T` format verb on an argument value, as used in the
binder error messages. -/
def goTypeName : GoValue → String
  | .vstr _ => "string"
  | .vfloat _ => "float64"
  | .vint _ => "int"
  | .vint64 _ => "int64"
  | .vjson _ => "json.Number"
  | .vbool _ => "bool"

/-- An argument mapping: association list with unique keys, standing
for the Go map in `request.Params.Arguments`. -/
def Args := List (String × GoValue)

/-- Embedding of `requiredParam[T comparable]` from
`pkg/github/diagnostics.go` (lines 359-378) instantiated at
`T = string`: absent key fails, wrong dynamic type fails, the zero
value (empty string) fails, otherwise the value is returned. -/
def requiredParamString (args : Args) (p : String) : Except String String :=
  match List.lookup p args with
  | none => .error ("missing required parameter: " ++ p)
  | some (.vstr s) =>
      if s = "" then .error ("missing required parameter: " ++ p) else .ok s
  | some _ => .error ("parameter " ++ p ++ " is not of type string")

/-- Accumulate the value of a decimal digit string; any non-digit
character fails the parse. -/
def digitsVal : List Char → Nat → Option Nat
  | [], acc => some acc
  | ch :: rest, acc =>
      if ch.isDigit then digitsVal rest (acc * 10 + (ch.toNat - '0'.toNat))
      else none

/-- Model of `json.Number.Int64()` (Go `strconv.ParseInt` on the
number's decimal text): an optional leading minus sign followed by at
least one decimal digit. -/
def parseDecInt (s : String) : Option Int :=
  match s.data with
  | [] => none
  | '-' :: rest =>
      if rest = [] then none
      else (digitsVal rest 0).map (fun n => -(n : Int))
  | l => (digitsVal l 0).map (fun n => (n : Int))

/-- Embedding of `requiredInt` from `pkg/github/diagnostics.go`
(lines 385-408): absent key fails; a `float64`, `int`, `int64` or
parseable `json.Number` is normalized to `int` and returned as-is
(note: no non-zero check appears in the code, despite the function's
own doc comment promising one); any other dynamic type fails. -/
def requiredInt (args : Args) (p : String) : Except String Int :=
  match List.lookup p args with
  | none => .error ("missing required parameter: " ++ p)
  | some (.vfloat n) => .ok n
  | some (.vint n) => .ok n
  | some (.vint64 n) => .ok n
  | some (.vjson s) =>
      match parseDecInt s with
      | some i => .ok i
      | none => .error ("failed to parse " ++ p ++ " as int")
  | some v => .error ("invalid type for " ++ p ++ ", expected number, got " ++ goTypeName v)

/-- Embedding of `OptionalParam[T]` from `pkg/github/diagnostics.go`
(lines 414-428) instantiated at `T = float64` (the instantiation
`OptionalIntParam` uses): absent key yields the zero value with no
error; a present value must have dynamic type `float64` exactly, else
a type-mismatch error. -/
def OptionalParamFloat (args : Args) (p : String) : Except String Int :=
  match List.lookup p args with
  | none => .ok 0
  | some (.vfloat n) => .ok n
  | some v => .error ("parameter " ++ p ++ " is not of type float64, is " ++ goTypeName v)

/-- Embedding of `OptionalIntParam` (lines 434-440): fetch via
`OptionalParam[float64]` and truncate with `int(v)` (the identity on
the integral values modelled here). -/
def OptionalIntParam (args : Args) (p : String) : Except String Int :=
  match OptionalParamFloat args p with
  | .error e => .error e
  | .ok v => .ok v

/-- Embedding of `OptionalIntParamWithDefault` (lines 444-453): an
absent key or a value coercing to zero yields the default. -/
def OptionalIntParamWithDefault (args : Args) (p : String) (d : Int) : Except String Int :=
  match OptionalIntParam args p with
  | .error e => .error e
  | .ok v => if v = 0 then .ok d else .ok v

/-- Result pair of `OptionalPaginationParams`. -/
structure PaginationParams where
  page : Int
  perPage : Int
deriving Repr, DecidableEq

/-- Embedding of `OptionalPaginationParams` (lines 512-525): `page`
defaults to 1 and `perPage` to 30; supplied values are passed through
unchanged with no bounds clamping. -/
def OptionalPaginationParams (args : Args) : Except String PaginationParams :=
  match OptionalIntParamWithDefault args "page" 1 with
  | .error e => .error e
  | .ok page =>
      match OptionalIntParamWithDefault args "perPage" 30 with
      | .error e => .error e
      | .ok perPage => .ok ⟨page, perPage⟩

/-- The quota triple a GitHub response carries (`resp.Rate` in
go-github): remaining requests, the limit, and the reset timestamp
(modelled as an integer clock value). -/
structure Rate where
  remaining : Int
  limit : Int
  reset : Int
deriving Repr, DecidableEq

/-- One outcome of the wrapped call function `fn` inside
`withRateLimitRetry`: a response (possibly nil, as `handleRateLimit`
tolerates), a `github.RateLimitError` carrying its `Rate.Reset`
timestamp, or any other error. -/
inductive CallOutcome where
  | ok (resp : Option Rate)
  | errRateLimit (reset : Int)
  | errOther
deriving Repr, DecidableEq

/-- A sleep performed between retry attempts: `dur d` is
`time.After(d)` with `d = resetAt - now` (possibly non-positive, in
which case the timer fires immediately), and `backoff i` is the
exponential fallback `time.Second * (1 << i)`. -/
inductive Sleep where
  | dur (d : Int)
  | backoff (i : Nat)
deriving Repr, DecidableEq

/-- The value `withRateLimitRetry` returns: nil on success, the
context's error on cancellation, one of the two "max retries
exceeded" wrapping errors (one per rate-limit detection site), or the
non-rate-limit error that broke the loop. -/
inductive RetryResult where
  | success
  | ctxCancelled
  | maxRetriesCall (reset : Int)
  | maxRetriesHeader (reset : Int)
  | otherErr
deriving Repr, DecidableEq

/-- Embedding of `handleRateLimit` from `pkg/github/diagnostics.go`
(lines 137-157): a nil response passes; `remaining == 0` produces a
`RateLimitError` carrying the reset time (returned here as
`some reset`); otherwise nil (the sub-10% low-quota branch only
prints a warning and changes no behaviour). -/
def handleRateLimit (resp : Option Rate) : Option Int :=
  match resp with
  | none => none
  | some r => if r.remaining = 0 then some r.reset else none

/-- Embedding of the retry loop of `withRateLimitRetry`
(`pkg/github/diagnostics.go` lines 160-210), indexed by the attempt
counter `i` and the remaining budget `rem = maxRetries - i`.  The
environment is explicit: `outcomes j` is what the wrapped `fn` does on
its `j`-th invocation, `now j` the clock when attempt `j` computes a
sleep, and `cancelled j` whether `ctx.Done()` fires during the sleep
after attempt `j`.  Returns the result, the number of invocations of
`fn`, and the list of completed sleeps in order.  Mirrors the source:
a `github.RateLimitError` from the call retries with the
backoff fallback when `resetAt - now` is negative; a header-detected
exhaustion (`handleRateLimit`) retries sleeping
`time.Until(rateLimitErr.Reset)` with no fallback; any other error
breaks the loop; at `i == maxRetries` (`rem = 0`) a rate-limited
attempt returns the corresponding terminal wrapping error. -/
def withRateLimitRetryAux (outcomes : Nat → CallOutcome) (now : Nat → Int)
    (cancelled : Nat → Bool) : Nat → Nat → RetryResult × Nat × List Sleep
  | i, rem =>
    match outcomes i with
    | .errRateLimit reset =>
        match rem with
        | 0 => (.maxRetriesCall reset, 1, [])
        | rem' + 1 =>
            if cancelled i then (.ctxCancelled, 1, [])
            else
              let next := withRateLimitRetryAux outcomes now cancelled (i + 1) rem'
              (next.1, next.2.1 + 1,
                (if reset - now i < 0 then Sleep.backoff i else Sleep.dur (reset - now i))
                  :: next.2.2)
    | .errOther => (.otherErr, 1, [])
    | .ok resp =>
        match handleRateLimit resp with
        | none => (.success, 1, [])
        | some reset =>
            match rem with
            | 0 => (.maxRetriesHeader reset, 1, [])
            | rem' + 1 =>
                if cancelled i then (.ctxCancelled, 1, [])
                else
                  let next := withRateLimitRetryAux outcomes now cancelled (i + 1) rem'
                  (next.1, next.2.1 + 1, Sleep.dur (reset - now i) :: next.2.2)

/-- Embedding of `withRateLimitRetry` (lines 160-210): run the loop
from attempt 0 with a budget of `maxRetries` retries. -/
def withRateLimitRetry (maxRetries : Nat) (outcomes : Nat → CallOutcome) (now : Nat → Int)
    (cancelled : Nat → Bool) : RetryResult × Nat × List Sleep :=
  withRateLimitRetryAux outcomes now cancelled 0 maxRetries

/-- An attempt outcome that triggers the rate-limit retry path:
either a recognizable `github.RateLimitError` from the call, or a
response whose quota header reports `remaining == 0`. -/
def isRateLimited : CallOutcome → Bool
  | .errRateLimit _ => true
  | .ok (some r) => r.remaining == 0
  | _ => false

/-- The terminal error `withRateLimitRetry` produces when the final
attempt is still rate-limited: it wraps the last observed condition
(the call-error or header variant, with its reset time). -/
def terminalOf : CallOutcome → RetryResult
  | .errRateLimit reset => .maxRetriesCall reset
  | .ok (some r) => .maxRetriesHeader r.reset
  | .ok none => .success
  | .errOther => .otherErr

/-- The authenticated caller's cached identity, as returned by the
viewer query in `CreateProjectV2` (`pkg/github/projects.go`
lines 291-304). -/
structure Viewer where
  id : String
  login : String
deriving Repr, DecidableEq

/-- Outcome of one GraphQL identity lookup (`user(login:)` or
`organization(login:)`): the query errors, or succeeds returning the
`ID` field (possibly empty). -/
inductive IdLookup where
  | ok (id : String)
  | err
deriving Repr, DecidableEq

/-- Which identity lookup an execution of `CreateProjectV2` issued. -/
inductive LookupCall where
  | user
  | org
deriving Repr, DecidableEq

/-- Embedding of the organization fallback of `CreateProjectV2`
(`pkg/github/projects.go` lines 329-354), reached after the user
lookup yields no identifier: a lookup error or an empty
`Organization.ID` fails with an error naming the login, otherwise the
organization's identifier wins.  Both lookup calls have been issued
at this point. -/
def resolveOwnerOrg (owner : String) (orgLookup : IdLookup) :
    Except String String × List LookupCall :=
  match orgLookup with
  | .err =>
      (.error ("Could not find user or organization with login: " ++ owner),
        [.user, .org])
  | .ok oid =>
      if oid = "" then
        (.error ("Could not find ID for user or organization: " ++ owner),
          [.user, .org])
      else (.ok oid, [.user, .org])

/-- Embedding of the owner-identity resolution in `CreateProjectV2`
(`pkg/github/projects.go` lines 306-355): if the owner login equals
the viewer's login the viewer's cached ID is used with no lookup
calls; otherwise the individual (`user`) lookup runs, its identifier
winning when the query succeeds with a non-empty `ID`
(`err == nil && userQuery.User.ID != ""`); otherwise the organization
lookup runs.  `userLookup`/`orgLookup` give the outcome each lookup
would have; the second component records the lookups issued, in
order. -/
def resolveOwnerID (viewer : Viewer) (owner : String)
    (userLookup orgLookup : IdLookup) : Except String String × List LookupCall :=
  if viewer.login = owner then (.ok viewer.id, [])
  else
    match userLookup with
    | .ok uid =>
        if uid ≠ "" then (.ok uid, [.user])
        else resolveOwnerOrg owner orgLookup
    | .err => resolveOwnerOrg owner orgLookup

/-- Result a tool handler hands back over the MCP contract: a text
payload (`mcp.NewToolResultText`) or a tool error
(`mcp.NewToolResultError`). -/
inductive ToolResult where
  | text (s : String)
  | error (s : String)
deriving Repr, DecidableEq

/-- Outcome of one of the two project queries inside `GetProjectV2`:
the GraphQL call errors with a message, or succeeds returning the
project's `ID` field (possibly empty, meaning no such project). -/
inductive GqlOutcome where
  | ok (projectId : String)
  | err (msg : String)
deriving Repr, DecidableEq

/-- Embedding of the owner extraction in `GetProjectV2`
(`pkg/github/projects.go` lines 30-39): the handler starts from the
hardcoded fallback `"manian0430"` and overwrites it only when the
`owner` key is present with dynamic type `string` — it never calls
`requiredParam`, so an absent key silently keeps the fallback. -/
def getProjectV2Owner (args : Args) : String :=
  match List.lookup "owner" args with
  | some (.vstr s) => s
  | _ => "manian0430"

/-- Embedding of the number extraction in `GetProjectV2`
(`pkg/github/projects.go` lines 31, 41-50): fallback 1, overwritten
by a present `float64` or `int` value. -/
def getProjectV2Number (args : Args) : Int :=
  match List.lookup "number" args with
  | some (.vfloat n) => n
  | some (.vint n) => n
  | _ => 1

/-- Embedding of the `GetProjectV2` handler body
(`pkg/github/projects.go` lines 26-218) after the client is obtained:
extract `(owner, number)` with the fallback defaults, issue the
user-project query with them, accept it when it succeeds with a
non-empty project `ID`, otherwise issue the organization-project
query, turning its error into a tool error and its success into the
marshalled payload.  The second component records each outbound query
issued, as the `(owner, number)` pair it carries. -/
def getProjectV2Run (args : Args) (userQ orgQ : GqlOutcome) :
    ToolResult × List (String × Int) :=
  let owner := getProjectV2Owner args
  let number := getProjectV2Number args
  match userQ with
  | .ok pid =>
      if pid ≠ "" then (.text pid, [(owner, number)])
      else
        match orgQ with
        | .err msg => (.error ("Error getting project: " ++ msg),
            [(owner, number), (owner, number)])
        | .ok opid => (.text opid, [(owner, number), (owner, number)])
  | .err _ =>
      match orgQ with
      | .err msg => (.error ("Error getting project: " ++ msg),
          [(owner, number), (owner, number)])
      | .ok opid => (.text opid, [(owner, number), (owner, number)])

/-- The seventeen tools registered only when `readOnly` is false in
`NewServer` (`pkg/github/diagnostics.go` lines 213-286), i.e. the
descriptors marked mutating. -/
def mutatingToolNames : List String :=
  ["create_issue", "add_issue_comment", "update_issue",
   "merge_pull_request", "update_pull_request_branch", "create_pull_request_review",
   "create_pull_request", "update_pull_request",
   "create_project_v2", "add_project_v2_item", "update_project_v2_item",
   "delete_project_v2_item",
   "create_or_update_file", "create_repository", "fork_repository",
   "create_branch", "push_files"]

/-- Embedding of the tool registrations performed by `NewServer`
(`pkg/github/diagnostics.go` lines 213-286), in source order: every
`s.AddTool` call appends its tool's name, and the five blocks guarded
by `if !readOnly` are skipped in read-only mode.  The registration
structure (which calls sit inside the guards) is taken from the
source; the name string of each tool constructor not defined under
the sources at hand (the issue, pull-request, repository, search,
user and code-scanning tools) is modelled from the spec's tool
naming, matching the snake_case names the project tools use. -/
def registeredTools (readOnly : Bool) : List String :=
  ["get_issue", "search_issues", "list_issues", "get_issue_comments"]
  ++ (if readOnly then [] else ["create_issue", "add_issue_comment", "update_issue"])
  ++ ["get_pull_request", "list_pull_requests", "get_pull_request_files",
      "get_pull_request_status", "get_pull_request_comments", "get_pull_request_reviews"]
  ++ (if readOnly then [] else
      ["merge_pull_request", "update_pull_request_branch", "create_pull_request_review",
       "create_pull_request", "update_pull_request"])
  ++ ["get_project_v2"]
  ++ (if readOnly then [] else
      ["create_project_v2", "add_project_v2_item", "update_project_v2_item",
       "delete_project_v2_item"])
  ++ ["search_repositories", "get_file_contents", "list_commits"]
  ++ (if readOnly then [] else
      ["create_or_update_file", "create_repository", "fork_repository",
       "create_branch", "push_files"])
  ++ ["search_code", "search_users", "get_me",
      "get_code_scanning_alert", "list_code_scanning_alerts"]

/-- Dispatch reachability: a tool name can be dispatched exactly when
it was registered on the server built with the given read-only flag
(the MCP server resolves a call by name against the registered
tools; an unregistered name is an unknown tool). -/
def dispatchReachable (readOnly : Bool) (name : String) : Bool :=
  (registeredTools readOnly).contains name

/-! Unfolding lemmas for the retry loop, one per branch of the source. -/

/-- A non-rate-limit call error breaks the loop immediately. -/
theorem retryAux_errOther (o : Nat → CallOutcome) (now : Nat → Int) (c : Nat → Bool)
    (i rem : Nat) (h : o i = .errOther) :
    withRateLimitRetryAux o now c i rem = (.otherErr, 1, []) := by
  unfold withRateLimitRetryAux
  rw [h]

/-- A response whose quota check passes returns success immediately. -/
theorem retryAux_success_step (o : Nat → CallOutcome) (now : Nat → Int) (c : Nat → Bool)
    (i rem : Nat) (resp : Option Rate) (h : o i = .ok resp)
    (hr : handleRateLimit resp = none) :
    withRateLimitRetryAux o now c i rem = (.success, 1, []) := by
  unfold withRateLimitRetryAux
  rw [h]
  simp [hr]

/-- With the budget exhausted, a `github.RateLimitError` from the call
returns the terminal wrapping error. -/
theorem retryAux_final_errRL (o : Nat → CallOutcome) (now : Nat → Int) (c : Nat → Bool)
    (i : Nat) (reset : Int) (h : o i = .errRateLimit reset) :
    withRateLimitRetryAux o now c i 0 = (.maxRetriesCall reset, 1, []) := by
  unfold withRateLimitRetryAux
  rw [h]

/-- With the budget exhausted, a header-detected exhaustion returns
the terminal wrapping error. -/
theorem retryAux_final_hdr (o : Nat → CallOutcome) (now : Nat → Int) (c : Nat → Bool)
    (i : Nat) (r : Rate) (h : o i = .ok (some r)) (h0 : r.remaining = 0) :
    withRateLimitRetryAux o now c i 0 = (.maxRetriesHeader r.reset, 1, []) := by
  unfold withRateLimitRetryAux
  rw [h]
  simp [handleRateLimit, h0]

/-- Cancellation during the sleep after a call-error-detected
rate limit aborts with the context's error. -/
theorem retryAux_cancel_errRL (o : Nat → CallOutcome) (now : Nat → Int) (c : Nat → Bool)
    (i rem : Nat) (reset : Int) (h : o i = .errRateLimit reset) (hcan : c i = true) :
    withRateLimitRetryAux o now c i (rem + 1) = (.ctxCancelled, 1, []) := by
  unfold withRateLimitRetryAux
  rw [h, hcan]
  rfl

/-- Cancellation during the sleep after a header-detected rate limit
aborts with the context's error. -/
theorem retryAux_cancel_hdr (o : Nat → CallOutcome) (now : Nat → Int) (c : Nat → Bool)
    (i rem : Nat) (r : Rate) (h : o i = .ok (some r)) (h0 : r.remaining = 0)
    (hcan : c i = true) :
    withRateLimitRetryAux o now c i (rem + 1) = (.ctxCancelled, 1, []) := by
  unfold withRateLimitRetryAux
  rw [h]
  simp [handleRateLimit, h0, hcan]

/-- Retry step for a call-error-detected rate limit with budget left:
sleep `resetAt - now`, falling back to `2^attempt` seconds when that
is negative, then run the remaining attempts. -/
theorem retryAux_step_errRL (o : Nat → CallOutcome) (now : Nat → Int) (c : Nat → Bool)
    (i rem : Nat) (reset : Int) (h : o i = .errRateLimit reset) (hcan : c i = false) :
    withRateLimitRetryAux o now c i (rem + 1) =
      ((withRateLimitRetryAux o now c (i + 1) rem).1,
       (withRateLimitRetryAux o now c (i + 1) rem).2.1 + 1,
       (if reset - now i < 0 then Sleep.backoff i else Sleep.dur (reset - now i))
         :: (withRateLimitRetryAux o now c (i + 1) rem).2.2) := by
  conv_lhs => unfold withRateLimitRetryAux
  rw [h, hcan]
  rfl

/-- Retry step for a header-detected rate limit with budget left:
sleep `time.Until(reset)` (no backoff fallback), then run the
remaining attempts. -/
theorem retryAux_step_hdr (o : Nat → CallOutcome) (now : Nat → Int) (c : Nat → Bool)
    (i rem : Nat) (r : Rate) (h : o i = .ok (some r)) (h0 : r.remaining = 0)
    (hcan : c i = false) :
    withRateLimitRetryAux o now c i (rem + 1) =
      ((withRateLimitRetryAux o now c (i + 1) rem).1,
       (withRateLimitRetryAux o now c (i + 1) rem).2.1 + 1,
       Sleep.dur (r.reset - now i) :: (withRateLimitRetryAux o now c (i + 1) rem).2.2) := by
  conv_lhs => unfold withRateLimitRetryAux
  rw [h]
  simp [handleRateLimit, h0, hcan]

/-- The loop body runs at most `rem + 1` times from any start index:
the wrapped call is never invoked more than budget-plus-one times. -/
theorem retryAux_calls_le (o : Nat → CallOutcome) (now : Nat → Int) (c : Nat → Bool) :
    ∀ rem i, (withRateLimitRetryAux o now c i rem).2.1 ≤ rem + 1 := by
  intro rem
  induction rem with
  | zero =>
      intro i
      cases ho : o i with
      | errRateLimit reset => rw [retryAux_final_errRL o now c i reset ho]
      | errOther => rw [retryAux_errOther o now c i 0 ho]
      | ok resp =>
          cases hr : handleRateLimit resp with
          | none => rw [retryAux_success_step o now c i 0 resp ho hr]
          | some reset =>
              cases resp with
              | none => simp [handleRateLimit] at hr
              | some r =>
                  have h0 : r.remaining = 0 := by
                    by_contra hne
                    simp [handleRateLimit, hne] at hr
                  rw [retryAux_final_hdr o now c i r ho h0]
  | succ rem ih =>
      intro i
      cases ho : o i with
      | errRateLimit reset =>
          cases hc : c i with
          | true =>
              rw [retryAux_cancel_errRL o now c i rem reset ho hc]
              simp
          | false =>
              rw [retryAux_step_errRL o now c i rem reset ho hc]
              have h2 := ih (i + 1)
              simp only []
              omega
      | errOther =>
          rw [retryAux_errOther o now c i (rem + 1) ho]
          simp
      | ok resp =>
          cases hr : handleRateLimit resp with
          | none =>
              rw [retryAux_success_step o now c i (rem + 1) resp ho hr]
              simp
          | some reset =>
              cases resp with
              | none => simp [handleRateLimit] at hr
              | some r =>
                  have h0 : r.remaining = 0 := by
                    by_contra hne
                    simp [handleRateLimit, hne] at hr
                  cases hc : c i with
                  | true =>
                      rw [retryAux_cancel_hdr o now c i rem r ho h0 hc]
                      simp
                  | false =>
                      rw [retryAux_step_hdr o now c i rem r ho h0 hc]
                      have h2 := ih (i + 1)
                      simp only []
                      omega

/-- If the first `k` attempts from index `i` are rate-limited, nothing
is cancelled, and attempt `i + k` returns a response with quota left,
the loop returns success after `k + 1` calls and `k` completed
sleeps. -/
theorem retryAux_success_after (o : Nat → CallOutcome) (now : Nat → Int) (c : Nat → Bool)
    (hc : ∀ j, c j = false) :
    ∀ k i rem, k ≤ rem →
      (∀ d, d < k → isRateLimited (o (i + d)) = true) →
      ∀ r : Rate, o (i + k) = .ok (some r) → 0 < r.remaining →
      (withRateLimitRetryAux o now c i rem).1 = .success ∧
      (withRateLimitRetryAux o now c i rem).2.1 = k + 1 ∧
      (withRateLimitRetryAux o now c i rem).2.2.length = k := by
  intro k
  induction k with
  | zero =>
      intro i rem _ _ r hok hrem
      rw [Nat.add_zero] at hok
      have hr : handleRateLimit (some r) = none := by
        have : ¬ r.remaining = 0 := by omega
        simp [handleRateLimit, this]
      rw [retryAux_success_step o now c i rem (some r) hok hr]
      simp
  | succ k ih =>
      intro i rem hkrem hlim r hok hrem
      obtain ⟨rem', rfl⟩ : ∃ rem', rem = rem' + 1 := ⟨rem - 1, by omega⟩
      have h0 : isRateLimited (o i) = true := by
        have := hlim 0 (Nat.succ_pos k)
        rwa [Nat.add_zero] at this
      have hok' : o (i + 1 + k) = .ok (some r) := by
        rw [show i + 1 + k = i + (k + 1) by omega]
        exact hok
      have hlim' : ∀ d, d < k → isRateLimited (o (i + 1 + d)) = true := by
        intro d hd
        rw [show i + 1 + d = i + (d + 1) by omega]
        exact hlim (d + 1) (by omega)
      have ihres := ih (i + 1) rem' (by omega) hlim' r hok' hrem
      cases ho : o i with
      | errRateLimit reset =>
          rw [retryAux_step_errRL o now c i rem' reset ho (hc i)]
          exact ⟨ihres.1, by simp [ihres.2.1], by simp [ihres.2.2]⟩
      | errOther =>
          rw [ho] at h0
          simp [isRateLimited] at h0
      | ok resp =>
          cases resp with
          | none =>
              rw [ho] at h0
              simp [isRateLimited] at h0
          | some r' =>
              have h00 : r'.remaining = 0 := by
                rw [ho] at h0
                simpa [isRateLimited] using h0
              rw [retryAux_step_hdr o now c i rem' r' ho h00 (hc i)]
              exact ⟨ihres.1, by simp [ihres.2.1], by simp [ihres.2.2]⟩

/-- If every attempt up to the budget is rate-limited and nothing is
cancelled, the loop returns the terminal wrapping error for the last
observed condition after exactly budget-plus-one calls. -/
theorem retryAux_all_limited (o : Nat → CallOutcome) (now : Nat → Int) (c : Nat → Bool)
    (hc : ∀ j, c j = false) :
    ∀ rem i, (∀ d, d ≤ rem → isRateLimited (o (i + d)) = true) →
      (withRateLimitRetryAux o now c i rem).1 = terminalOf (o (i + rem)) ∧
      (withRateLimitRetryAux o now c i rem).2.1 = rem + 1 := by
  intro rem
  induction rem with
  | zero =>
      intro i hlim
      have h0 : isRateLimited (o i) = true := by
        have := hlim 0 (le_refl 0)
        rwa [Nat.add_zero] at this
      rw [Nat.add_zero]
      cases ho : o i with
      | errRateLimit reset =>
          rw [retryAux_final_errRL o now c i reset ho]
          exact ⟨rfl, rfl⟩
      | errOther =>
          rw [ho] at h0
          simp [isRateLimited] at h0
      | ok resp =>
          cases resp with
          | none =>
              rw [ho] at h0
              simp [isRateLimited] at h0
          | some r =>
              have h00 : r.remaining = 0 := by
                rw [ho] at h0
                simpa [isRateLimited] using h0
              rw [retryAux_final_hdr o now c i r ho h00]
              exact ⟨rfl, rfl⟩
  | succ rem ih =>
      intro i hlim
      have h0 : isRateLimited (o i) = true := by
        have := hlim 0 (Nat.zero_le _)
        rwa [Nat.add_zero] at this
      have hlim' : ∀ d, d ≤ rem → isRateLimited (o (i + 1 + d)) = true := by
        intro d hd
        rw [show i + 1 + d = i + (d + 1) by omega]
        exact hlim (d + 1) (by omega)
      have ihres := ih (i + 1) hlim'
      have heq : i + 1 + rem = i + (rem + 1) := by omega
      rw [heq] at ihres
      cases ho : o i with
      | errRateLimit reset =>
          rw [retryAux_step_errRL o now c i rem reset ho (hc i)]
          exact ⟨ihres.1, by simp [ihres.2]⟩
      | errOther =>
          rw [ho] at h0
          simp [isRateLimited] at h0
      | ok resp =>
          cases resp with
          | none =>
              rw [ho] at h0
              simp [isRateLimited] at h0
          | some r =>
              have h00 : r.remaining = 0 := by
                rw [ho] at h0
                simpa [isRateLimited] using h0
              rw [retryAux_step_hdr o now c i rem r ho h00 (hc i)]
              exact ⟨ihres.1, by simp [ihres.2]⟩

/-- If the first `k` attempts from index `i` are rate-limited without
cancellation, attempt `i + k` is rate-limited with budget left, and
the cancellation signal fires during its sleep, the loop aborts with
the context's error after `k + 1` calls. -/
theorem retryAux_cancelled (o : Nat → CallOutcome) (now : Nat → Int) (c : Nat → Bool) :
    ∀ k i rem, k < rem →
      (∀ d, d < k → isRateLimited (o (i + d)) = true ∧ c (i + d) = false) →
      isRateLimited (o (i + k)) = true → c (i + k) = true →
      (withRateLimitRetryAux o now c i rem).1 = .ctxCancelled ∧
      (withRateLimitRetryAux o now c i rem).2.1 = k + 1 := by
  intro k
  induction k with
  | zero =>
      intro i rem hk _ h0 hcan
      obtain ⟨rem', rfl⟩ : ∃ rem', rem = rem' + 1 := ⟨rem - 1, by omega⟩
      rw [Nat.add_zero] at h0 hcan
      cases ho : o i with
      | errRateLimit reset =>
          rw [retryAux_cancel_errRL o now c i rem' reset ho hcan]
          exact ⟨rfl, rfl⟩
      | errOther =>
          rw [ho] at h0
          simp [isRateLimited] at h0
      | ok resp =>
          cases resp with
          | none =>
              rw [ho] at h0
              simp [isRateLimited] at h0
          | some r =>
              have h00 : r.remaining = 0 := by
                rw [ho] at h0
                simpa [isRateLimited] using h0
              rw [retryAux_cancel_hdr o now c i rem' r ho h00 hcan]
              exact ⟨rfl, rfl⟩
  | succ k ih =>
      intro i rem hk hprev h0 hcan
      obtain ⟨rem', rfl⟩ : ∃ rem', rem = rem' + 1 := ⟨rem - 1, by omega⟩
      have hfirst := hprev 0 (Nat.succ_pos k)
      rw [Nat.add_zero] at hfirst
      have h0' : isRateLimited (o (i + 1 + k)) = true := by
        rw [show i + 1 + k = i + (k + 1) by omega]
        exact h0
      have hcan' : c (i + 1 + k) = true := by
        rw [show i + 1 + k = i + (k + 1) by omega]
        exact hcan
      have hprev' : ∀ d, d < k → isRateLimited (o (i + 1 + d)) = true ∧ c (i + 1 + d) = false := by
        intro d hd
        rw [show i + 1 + d = i + (d + 1) by omega]
        exact hprev (d + 1) (by omega)
      have ihres := ih (i + 1) rem' (by omega) hprev' h0' hcan'
      cases ho : o i with
      | errRateLimit reset =>
          rw [retryAux_step_errRL o now c i rem' reset ho hfirst.2]
          exact ⟨ihres.1, by simp [ihres.2]⟩
      | errOther =>
          rw [ho] at hfirst
          simp [isRateLimited] at hfirst
      | ok resp =>
          cases resp with
          | none =>
              rw [ho] at hfirst
              simp [isRateLimited] at hfirst
          | some r =>
              have h00 : r.remaining = 0 := by
                have := hfirst.1
                rw [ho] at this
                simpa [isRateLimited] using this
              rw [retryAux_step_hdr o now c i rem' r ho h00 hfirst.2]
              exact ⟨ihres.1, by simp [ihres.2]⟩

/-- Outcome sequence for the C5 counterexample, header-detected
branch: the first attempt's response reports `remaining = 0` with
reset time 5, the second has quota left. -/
def c5HeaderOutcomes : Nat → CallOutcome :=
  fun j => if j = 0 then .ok (some ⟨0, 5000, 5⟩) else .ok (some ⟨100, 5000, 200⟩)

/-- Outcome sequence for the C5 counterexample, call-error branch:
the first attempt fails with a `github.RateLimitError` whose reset
time equals the current clock, the second succeeds. -/
def c5CallerOutcomes : Nat → CallOutcome :=
  fun j => if j = 0 then .errRateLimit 10 else .ok (some ⟨100, 5000, 200⟩)

/-- Clock for the C5 counterexample: every attempt happens at time
10, so both reset times above are in the past or exactly now. -/
def c5Now : Nat → Int := fun _ => 10

/-- No cancellation fires in the C5 scenarios. -/
def c5NoCancel : Nat → Bool := fun _ => false

/-- C5 counterexample: with a response-header rate limit whose
`resetAt - now = 5 - 10 = -5` is non-positive, the guard sleeps
`time.Until(reset)` (the negative duration, which elapses
immediately) and not the exponential backoff `2^0` seconds; likewise
a call-error rate limit with `resetAt - now = 0` (non-positive but
not negative) sleeps the zero duration, not the backoff. -/
theorem sleep_fallback_counterexample :
    (withRateLimitRetry 2 c5HeaderOutcomes c5Now c5NoCancel).2.2 = [Sleep.dur (-5)] ∧
    [Sleep.dur (-5)] ≠ [Sleep.backoff 0] ∧
    (withRateLimitRetry 2 c5CallerOutcomes c5Now c5NoCancel).2.2 = [Sleep.dur 0] ∧
    [Sleep.dur 0] ≠ [Sleep.backoff 0] :=
  ⟨rfl, by decide, rfl, by decide⟩

/-- C5 (amended): for a retry triggered by a recognizable rate-limit
error from the call, the sleep is `resetAt - now`, with the
exponential fallback `2^attempt` seconds used exactly when that
difference is strictly negative; for a retry triggered by a response
header with `remaining = 0`, the sleep is always `resetAt - now` with
no exponential fallback. -/
theorem sleep_duration_amended (o : Nat → CallOutcome) (now : Nat → Int) (c : Nat → Bool)
    (i rem : Nat) (reset : Int) (r : Rate) :
    (c i = false → o i = .errRateLimit reset →
      (withRateLimitRetryAux o now c i (rem + 1)).2.2.head?
        = some (if reset - now i < 0 then Sleep.backoff i else Sleep.dur (reset - now i))) ∧
    (c i = false → o i = .ok (some r) → r.remaining = 0 →
      (withRateLimitRetryAux o now c i (rem + 1)).2.2.head?
        = some (Sleep.dur (r.reset - now i))) := by
  constructor
  · intro hcan h
    rw [retryAux_step_errRL o now c i rem reset h hcan]
    rfl
  · intro hcan h h0
    rw [retryAux_step_hdr o now c i rem r h h0 hcan]
    rfl

/-- Witness for the amended C5 statement at the concrete header
scenario: the recorded sleep is the negative remainder `5 - 10`. -/
theorem sleep_duration_amended_witness :
    (withRateLimitRetryAux c5HeaderOutcomes c5Now c5NoCancel 0 1).2.2.head?
      = some (Sleep.dur ((5 : Int) - 10)) :=
  (sleep_duration_amended c5HeaderOutcomes c5Now c5NoCancel 0 0 0 ⟨0, 5000, 5⟩).2
    rfl rfl rfl

/-- C4: `withRateLimitRetry` invokes the wrapped call at most
`maxRetries + 1` times; when the first `k ≤ maxRetries` attempts are
rate-limited, nothing is cancelled, and attempt `k` succeeds with
quota remaining, it returns success after `k + 1` calls and exactly
`k` sleeps; when every attempt through the budget is rate-limited it
returns the terminal error wrapping the last observed condition. -/
theorem withRateLimitRetry_budget_spec (m k : Nat) (o : Nat → CallOutcome)
    (now : Nat → Int) (c : Nat → Bool) (r : Rate) :
    (withRateLimitRetry m o now c).2.1 ≤ m + 1 ∧
    ((∀ j, c j = false) → k ≤ m → (∀ d, d < k → isRateLimited (o d) = true) →
      o k = .ok (some r) → 0 < r.remaining →
      (withRateLimitRetry m o now c).1 = .success ∧
      (withRateLimitRetry m o now c).2.1 = k + 1 ∧
      (withRateLimitRetry m o now c).2.2.length = k) ∧
    ((∀ j, c j = false) → (∀ d, d ≤ m → isRateLimited (o d) = true) →
      (withRateLimitRetry m o now c).1 = terminalOf (o m) ∧
      (withRateLimitRetry m o now c).2.1 = m + 1) := by
  refine ⟨retryAux_calls_le o now c m 0, ?_, ?_⟩
  · intro hc hk hlim hok hrem
    exact retryAux_success_after o now c hc k 0 m hk
      (fun d hd => by simpa using hlim d hd) r (by simpa using hok) hrem
  · intro hc hlim
    have := retryAux_all_limited o now c hc m 0 (fun d hd => by simpa using hlim d hd)
    simpa using this

/-- Outcome sequence for the C4 witness: the first attempt fails with
a rate-limit error, the second succeeds with quota left. -/
def w4Outcomes : Nat → CallOutcome :=
  fun j => if j = 0 then .errRateLimit 50 else .ok (some ⟨10, 5000, 99⟩)

/-- Constant clock for the retry witnesses. -/
def wNow : Nat → Int := fun _ => 0

/-- No cancellation fires in the C4 witness. -/
def wNoCancel : Nat → Bool := fun _ => false

/-- Witness for C4 at `maxRetries = 2`, `k = 1`: one rate-limited
attempt, one successful attempt, one sleep. -/
theorem withRateLimitRetry_budget_spec_witness :
    (withRateLimitRetry 2 w4Outcomes wNow wNoCancel).1 = .success ∧
    (withRateLimitRetry 2 w4Outcomes wNow wNoCancel).2.1 = 2 ∧
    (withRateLimitRetry 2 w4Outcomes wNow wNoCancel).2.2.length = 1 :=
  (withRateLimitRetry_budget_spec 2 1 w4Outcomes wNow wNoCancel ⟨10, 5000, 99⟩).2.1
    (fun _ => rfl) (by omega)
    (fun d hd => by
      have hd0 : d = 0 := by omega
      subst hd0
      rfl)
    rfl (by decide)

/-- C8: if the attempts before index `k` are rate-limited without
cancellation, attempt `k` (with retry budget left) is rate-limited,
and the per-call cancellation signal fires during the following
sleep, the guard returns the context's error — never one of the
rate-limit terminal errors — and the wrapped call is not invoked
again (`k + 1` invocations in total). -/
theorem withRateLimitRetry_cancellation (m k : Nat) (o : Nat → CallOutcome)
    (now : Nat → Int) (c : Nat → Bool) :
    k < m → (∀ d, d < k → isRateLimited (o d) = true ∧ c d = false) →
    isRateLimited (o k) = true → c k = true →
    (withRateLimitRetry m o now c).1 = .ctxCancelled ∧
    (withRateLimitRetry m o now c).2.1 = k + 1 ∧
    (∀ t : Int, (withRateLimitRetry m o now c).1 ≠ .maxRetriesCall t ∧
      (withRateLimitRetry m o now c).1 ≠ .maxRetriesHeader t) := by
  intro hk hprev h0 hcan
  have := retryAux_cancelled o now c k 0 m hk
    (fun d hd => by simpa using hprev d hd) (by simpa using h0) (by simpa using hcan)
  have h1 : (withRateLimitRetry m o now c).1 = .ctxCancelled := this.1
  refine ⟨h1, this.2, ?_⟩
  intro t
  rw [h1]
  exact ⟨by intro h; exact RetryResult.noConfusion h, by intro h; exact RetryResult.noConfusion h⟩

/-- Outcome sequence for the C8 witness: every attempt is
rate-limited. -/
def w8Outcomes : Nat → CallOutcome := fun _ => .errRateLimit 50

/-- Cancellation for the C8 witness: the signal fires during the
sleep after attempt 1. -/
def w8Cancel : Nat → Bool := fun j => j == 1

/-- Witness for C8 at `maxRetries = 3`, cancellation during the
second sleep: the guard aborts with the context's error after two
calls. -/
theorem withRateLimitRetry_cancellation_witness :
    (withRateLimitRetry 3 w8Outcomes wNow w8Cancel).1 = .ctxCancelled ∧
    (withRateLimitRetry 3 w8Outcomes wNow w8Cancel).2.1 = 2 ∧
    (∀ t : Int, (withRateLimitRetry 3 w8Outcomes wNow w8Cancel).1 ≠ .maxRetriesCall t ∧
      (withRateLimitRetry 3 w8Outcomes wNow w8Cancel).1 ≠ .maxRetriesHeader t) :=
  withRateLimitRetry_cancellation 3 1 w8Outcomes wNow w8Cancel (by omega)
    (fun d hd => by
      have hd0 : d = 0 := by omega
      subst hd0
      exact ⟨rfl, rfl⟩)
    rfl rfl

/-- C1: the server built with the read-only flag registers none of
the seventeen mutating tools, so no mutating tool is reachable from
dispatch in read-only mode; every tool registered in read-only mode
is also registered in normal mode, every normal-mode tool is either
mutating or registered in both modes, and the mutating tools are all
reachable in normal mode. -/
theorem newServer_readonly_registration :
    (mutatingToolNames.all fun n => !dispatchReachable true n) = true ∧
    ((registeredTools true).all fun n => dispatchReachable false n) = true ∧
    ((registeredTools false).all fun n =>
        mutatingToolNames.contains n || (registeredTools true).contains n) = true ∧
    (mutatingToolNames.all fun n => dispatchReachable false n) = true := by
  decide

/-- C2: `requiredParam[string]` errors naming the parameter when the
key is absent, when the bound value has a non-string dynamic type, or
when the value is the empty string, and returns exactly the supplied
value when it is a non-empty string. -/
theorem requiredParam_string_spec (args : Args) (p : String) :
    (List.lookup p args = none →
      requiredParamString args p = .error ("missing required parameter: " ++ p)) ∧
    (∀ v, List.lookup p args = some v → (∀ s, v ≠ GoValue.vstr s) →
      requiredParamString args p = .error ("parameter " ++ p ++ " is not of type string")) ∧
    (List.lookup p args = some (.vstr "") →
      requiredParamString args p = .error ("missing required parameter: " ++ p)) ∧
    (∀ s, s ≠ "" → List.lookup p args = some (.vstr s) →
      requiredParamString args p = .ok s) := by
  refine ⟨?_, ?_, ?_, ?_⟩
  · intro h
    simp [requiredParamString, h]
  · intro v hv hns
    cases v with
    | vstr s => exact absurd rfl (hns s)
    | vfloat n => simp [requiredParamString, hv]
    | vint n => simp [requiredParamString, hv]
    | vint64 n => simp [requiredParamString, hv]
    | vjson s => simp [requiredParamString, hv]
    | vbool b => simp [requiredParamString, hv]
  · intro h
    simp [requiredParamString, h]
  · intro s hs h
    simp [requiredParamString, h, hs]

/-- Witness for C2: a present non-empty string is returned as-is. -/
theorem requiredParam_string_spec_witness :
    requiredParamString [("owner", .vstr "acme")] "owner" = .ok "acme" :=
  (requiredParam_string_spec [("owner", .vstr "acme")] "owner").2.2.2 "acme"
    (by decide) (by decide)

/-- C3: evaluation of `requiredInt` at the failing input — a required
integer parameter supplied as the number zero is accepted and
returned (no non-zero check is performed, although the function's own
doc comment promises one and an absent key is rejected). -/
theorem requiredInt_accepts_zero :
    requiredInt [("issue_number", .vfloat 0)] "issue_number" = .ok 0 ∧
    requiredInt [] "issue_number" = .error "missing required parameter: issue_number" :=
  ⟨rfl, rfl⟩

/-- C6: owner-identity resolution in `CreateProjectV2` follows the
ordered algorithm: the caller's own login short-circuits to the
cached viewer identity with zero lookup calls; otherwise the
individual lookup runs first and wins when it returns a non-empty
identifier; the organization lookup runs (second) exactly when the
individual lookup errors or returns an empty identifier, and wins
when it returns a non-empty identifier; when both lookups yield no
identifier (including lookup errors) the operation fails with an
error naming the login. -/
theorem identity_resolution_spec (viewer : Viewer) (owner : String) (ul ol : IdLookup) :
    (viewer.login = owner →
      resolveOwnerID viewer owner ul ol = (.ok viewer.id, [])) ∧
    (viewer.login ≠ owner → ∀ uid, ul = .ok uid → uid ≠ "" →
      resolveOwnerID viewer owner ul ol = (.ok uid, [.user])) ∧
    (viewer.login ≠ owner → (ul = .err ∨ ul = .ok "") →
      (resolveOwnerID viewer owner ul ol).2 = [.user, .org]) ∧
    (viewer.login ≠ owner → (ul = .err ∨ ul = .ok "") → ∀ oid, ol = .ok oid → oid ≠ "" →
      (resolveOwnerID viewer owner ul ol).1 = .ok oid) ∧
    (viewer.login ≠ owner → (ul = .err ∨ ul = .ok "") → (ol = .err ∨ ol = .ok "") →
      (resolveOwnerID viewer owner ul ol).1
          = .error ("Could not find user or organization with login: " ++ owner) ∨
      (resolveOwnerID viewer owner ul ol).1
          = .error ("Could not find ID for user or organization: " ++ owner)) := by
  refine ⟨?_, ?_, ?_, ?_, ?_⟩
  · intro h
    simp [resolveOwnerID, h]
  · intro h uid hul hne
    subst hul
    simp [resolveOwnerID, h, hne]
  · intro h hul
    rcases hul with rfl | rfl <;>
      cases ol with
      | err => simp [resolveOwnerID, resolveOwnerOrg, h]
      | ok oid =>
          by_cases h2 : oid = "" <;> simp [resolveOwnerID, resolveOwnerOrg, h, h2]
  · intro h hul oid hol hne
    subst hol
    rcases hul with rfl | rfl <;> simp [resolveOwnerID, resolveOwnerOrg, h, hne]
  · intro h hul hol
    rcases hul with rfl | rfl <;> rcases hol with rfl | rfl <;>
      simp [resolveOwnerID, resolveOwnerOrg, h]

/-- Witness for C6: both lookups failing yields the error naming the
login "acme". -/
theorem identity_resolution_spec_witness :
    (resolveOwnerID ⟨"VID", "me"⟩ "acme" .err .err).1
        = .error ("Could not find user or organization with login: " ++ "acme") ∨
    (resolveOwnerID ⟨"VID", "me"⟩ "acme" .err .err).1
        = .error ("Could not find ID for user or organization: " ++ "acme") :=
  (identity_resolution_spec ⟨"VID", "me"⟩ "acme" .err .err).2.2.2.2
    (by decide) (Or.inl rfl) (Or.inl rfl)

/-- C7: evaluation of the `GetProjectV2` handler at the failing input
(`owner` absent): the owner extraction silently substitutes the
hardcoded fallback `"manian0430"`, an outbound query carrying that
substitute owner is issued, and the handler returns that query's
result instead of the ValidationError "missing required parameter:
owner" (which `requiredParamString` would produce, as the sibling
copy of this handler does). -/
theorem getProjectV2_missing_owner_fallback :
    getProjectV2Owner [("number", .vfloat 5)] = "manian0430" ∧
    getProjectV2Run [("number", .vfloat 5)] (.ok "PVT_kwHOAAA") (.err "x")
      = (.text "PVT_kwHOAAA", [("manian0430", 5)]) ∧
    getProjectV2Run [] (.err "user query failed") (.ok "PVT_org")
      = (.text "PVT_org", [("manian0430", 1), ("manian0430", 1)]) ∧
    requiredParamString [("number", .vfloat 5)] "owner"
      = .error "missing required parameter: owner" :=
  ⟨rfl, rfl, rfl, rfl⟩

/-- C9: pagination binding defaults to `(1, 30)` when keys are absent
or the supplied numeric value coerces to zero, and passes any other
supplied value through unchanged — including the out-of-bounds
`perPage = 150`, which is never clamped to the declared maximum. -/
theorem pagination_defaults_spec (p q : Int) :
    OptionalPaginationParams [] = .ok ⟨1, 30⟩ ∧
    OptionalPaginationParams [("page", .vfloat p), ("perPage", .vfloat q)]
      = .ok ⟨if p = 0 then 1 else p, if q = 0 then 30 else q⟩ ∧
    OptionalPaginationParams [("perPage", .vfloat 150)] = .ok ⟨1, 150⟩ := by
  refine ⟨rfl, ?_, rfl⟩
  by_cases hp : p = 0 <;> by_cases hq : q = 0 <;>
    simp [OptionalPaginationParams, OptionalIntParamWithDefault, OptionalIntParam,
      OptionalParamFloat, List.lookup, hp, hq]

/-- C10: an optional integer parameter supplied as a non-float
numeric dynamic type (`int`, `int64`, or `json.Number`) makes
`OptionalIntParam` fail with a type-mismatch error instead of
coercing, while `requiredInt` accepts and normalizes all four
numeric representations; only `float64` is accepted optionally. -/
theorem optionalIntParam_type_mismatch (n : Int) :
    OptionalIntParam [("page", .vint n)] "page"
      = .error "parameter page is not of type float64, is int" ∧
    OptionalIntParam [("page", .vint64 n)] "page"
      = .error "parameter page is not of type float64, is int64" ∧
    OptionalIntParam [("page", .vjson "5")] "page"
      = .error "parameter page is not of type float64, is json.Number" ∧
    OptionalIntParam [("page", .vfloat n)] "page" = .ok n ∧
    requiredInt [("page", .vint n)] "page" = .ok n ∧
    requiredInt [("page", .vint64 n)] "page" = .ok n ∧
    requiredInt [("page", .vjson "5")] "page" = .ok 5 ∧
    requiredInt [("page", .vfloat n)] "page" = .ok n :=
  ⟨rfl, rfl, rfl, rfl, rfl, rfl, rfl, rfl⟩

end GithubMcp
